import Mathlib

/-!
Verification of the Valetudo MQTT ↔ Matterbridge adapter
(`src/dist/platforms/valetudo/platform.js`, class `ValetudoPlatform`).

The adapter's own mutable state is exactly two fields: the `watertank`
attachment flag and the `segments` table.  Every other effect of the three
operations (`onMqttMessage`, `applyCleanMode`, `cleanServiceAreas`) is a call
to an external collaborator: a publish on the MQTT client, a log line, or an
update call on the `RoboticVacuumCleaner` device handle.  We embed each
operation as a pure function returning the new adapter state together with the
ordered list of those external calls.  JavaScript builtins the code relies on
(`Number`, `JSON.parse`, `Object.entries`, string truthiness,
`String.prototype.endsWith`) are modelled explicitly below.
-/

namespace Valetudo

/-- JavaScript values produced by `JSON.parse`.  Numbers are modelled as exact
rationals (JS uses IEEE doubles; the distinction never matters for the
properties proved here, which only ever inspect whether parsing succeeded and
the shape of the parsed value). -/
inductive Json where
  | null
  | bool (b : Bool)
  | num (q : ℚ)
  | str (s : String)
  | arr (elems : List Json)
  | obj (fields : List (String × Json))

/-- Result of the JS `Number(string)` conversion, `none` standing for `NaN`. -/
inductive JsNum where
  | finite (q : ℚ)
  | posInf
  | negInf
deriving DecidableEq, Repr

/-- JSON whitespace characters (RFC 8259: space, tab, line feed, carriage
return), as accepted between tokens by `JSON.parse`. -/
def isJsonWs (c : Char) : Bool :=
  c = ' ' || c = '\t' || c = '\n' || c = '\r'

/-- Drop leading JSON whitespace. -/
def skipWs : List Char → List Char
  | [] => []
  | c :: cs => if isJsonWs c then skipWs cs else c :: cs

/-- Value of a hexadecimal digit. -/
def hexVal (c : Char) : Option Nat :=
  if '0' ≤ c ∧ c ≤ '9' then some (c.toNat - 48)
  else if 'a' ≤ c ∧ c ≤ 'f' then some (c.toNat - 87)
  else if 'A' ≤ c ∧ c ≤ 'F' then some (c.toNat - 55)
  else none

/-- Decimal digits to a natural number (most significant first). -/
def digitsToNat (ds : List Char) : Nat :=
  ds.foldl (fun a c => a * 10 + (c.toNat - 48)) 0

/-- Split off a maximal run of decimal digits. -/
def spanDigits (cs : List Char) : List Char × List Char :=
  (cs.takeWhile Char.isDigit, cs.dropWhile Char.isDigit)

/-- Exponent part of a JSON number (after the mantissa): optional `e`/`E`
followed by an optional sign and at least one digit. -/
def parseExpTail (m : ℚ) (t : List Char) : Option (ℚ × List Char) :=
  let (sgnNeg, t2) : Bool × List Char :=
    match t with
    | '+' :: u => (false, u)
    | '-' :: u => (true, u)
    | u => (false, u)
  let (ds, r) := spanDigits t2
  if ds.isEmpty then none
  else some (m * (10 : ℚ) ^ (if sgnNeg then -(digitsToNat ds : ℤ) else (digitsToNat ds : ℤ)), r)

/-- Fraction and exponent of a JSON number, given its integer part. -/
def parseFracExp (ip : Nat) (r : List Char) : Option (ℚ × List Char) :=
  let m? : Option (ℚ × List Char) :=
    match r with
    | '.' :: t =>
      let (fp, r2) := spanDigits t
      if fp.isEmpty then none
      else some ((ip : ℚ) + (digitsToNat fp : ℚ) / (10 : ℚ) ^ fp.length, r2)
    | _ => some ((ip : ℚ), r)
  match m? with
  | none => none
  | some (m, r2) =>
    match r2 with
    | 'e' :: t => parseExpTail m t
    | 'E' :: t => parseExpTail m t
    | _ => some (m, r2)

/-- Unsigned JSON number: `0` or a nonzero-leading digit run, then optional
fraction and exponent. -/
def parseJsonUnsigned (cs : List Char) : Option (ℚ × List Char) :=
  match cs with
  | '0' :: r => parseFracExp 0 r
  | c :: _ =>
    if c.isDigit then
      let (ip, r) := spanDigits cs
      parseFracExp (digitsToNat ip) r
    else none
  | [] => none

/-- JSON number with optional leading minus sign. -/
def parseJsonNum (cs : List Char) : Option (ℚ × List Char) :=
  match cs with
  | '-' :: t => (parseJsonUnsigned t).map (fun p => (-p.1, p.2))
  | t => parseJsonUnsigned t

/-- Body of a JSON string after the opening quote, with the standard escape
sequences; control characters below U+0020 are rejected.  `acc` holds the
characters read so far, in reverse. -/
def parseStrBody : Nat → List Char → List Char → Option (String × List Char)
  | 0, _, _ => none
  | fuel + 1, cs, acc =>
    match cs with
    | [] => none
    | '"' :: rest => some (String.mk acc.reverse, rest)
    | '\\' :: e :: rest =>
      match e with
      | '"' => parseStrBody fuel rest ('"' :: acc)
      | '\\' => parseStrBody fuel rest ('\\' :: acc)
      | '/' => parseStrBody fuel rest ('/' :: acc)
      | 'b' => parseStrBody fuel rest (Char.ofNat 8 :: acc)
      | 'f' => parseStrBody fuel rest (Char.ofNat 12 :: acc)
      | 'n' => parseStrBody fuel rest ('\n' :: acc)
      | 'r' => parseStrBody fuel rest ('\r' :: acc)
      | 't' => parseStrBody fuel rest ('\t' :: acc)
      | 'u' =>
        match rest with
        | a :: b :: c :: d :: rest2 =>
          match hexVal a, hexVal b, hexVal c, hexVal d with
          | some ha, some hb, some hc, some hd =>
            parseStrBody fuel rest2 (Char.ofNat (((ha * 16 + hb) * 16 + hc) * 16 + hd) :: acc)
          | _, _, _, _ => none
        | _ => none
      | _ => none
    | c :: rest => if c.toNat < 32 then none else parseStrBody fuel rest (c :: acc)

/-- Insertion of a key/value pair into a JS object under property-assignment
semantics: an existing key keeps its position but takes the new value, a new
key is appended. -/
def objInsert (fields : List (String × Json)) (k : String) (v : Json) :
    List (String × Json) :=
  if fields.any (fun p => p.1 = k) then
    fields.map (fun p => if p.1 = k then (k, v) else p)
  else fields ++ [(k, v)]

/-- Pending work item of the recursive-descent JSON parser: a value, the
items of an array after the first `[`, or the members of an object after the
first `\x7b` (each with the elements accumulated so far). -/
inductive ParseJob where
  | val
  | arrItems (acc : List Json)
  | objItems (acc : List (String × Json))

/-- Core of the `JSON.parse` model.  Fuel-indexed so that the recursion is
structural; `jsonParse` supplies enough fuel for any input of the given
length.  Returns the parsed value and the unconsumed remainder. -/
def parseCore : Nat → ParseJob → List Char → Option (Json × List Char)
  | 0, _, _ => none
  | fuel + 1, .val, cs =>
    match skipWs cs with
    | [] => none
    | 'n' :: 'u' :: 'l' :: 'l' :: r => some (.null, r)
    | 't' :: 'r' :: 'u' :: 'e' :: r => some (.bool true, r)
    | 'f' :: 'a' :: 'l' :: 's' :: 'e' :: r => some (.bool false, r)
    | '"' :: r => (parseStrBody (fuel + 1) r []).map (fun p => (.str p.1, p.2))
    | '[' :: r =>
      match skipWs r with
      | ']' :: r2 => some (.arr [], r2)
      | r2 => parseCore fuel (.arrItems []) r2
    | '\x7b' :: r =>
      match skipWs r with
      | '\x7d' :: r2 => some (.obj [], r2)
      | r2 => parseCore fuel (.objItems []) r2
    | c :: r => (parseJsonNum (c :: r)).map (fun p => (.num p.1, p.2))
  | fuel + 1, .arrItems acc, cs =>
    match parseCore fuel .val cs with
    | none => none
    | some (v, r) =>
      match skipWs r with
      | ',' :: r2 => parseCore fuel (.arrItems (v :: acc)) r2
      | ']' :: r2 => some (.arr (v :: acc).reverse, r2)
      | _ => none
  | fuel + 1, .objItems acc, cs =>
    match skipWs cs with
    | '"' :: r =>
      match parseStrBody (fuel + 1) r [] with
      | none => none
      | some (k, r2) =>
        match skipWs r2 with
        | ':' :: r3 =>
          match parseCore fuel .val r3 with
          | none => none
          | some (v, r4) =>
            match skipWs r4 with
            | ',' :: r5 => parseCore fuel (.objItems (objInsert acc k v)) r5
            | '\x7d' :: r5 => some (.obj (objInsert acc k v), r5)
            | _ => none
        | _ => none
    | _ => none

/-- Model of the JS builtin `JSON.parse`: `none` when the call would throw a
`SyntaxError` (in the adapter that exception is caught), `some v` when it
returns the value `v`. -/
def jsonParse (s : String) : Option Json :=
  match parseCore (2 * s.length + 8) .val s.data with
  | some (v, r) => if (skipWs r).isEmpty then some v else none
  | none => none

/-- Whitespace stripped by the JS `Number(string)` conversion (the common
white-space and line-terminator code points). -/
def isJsTrimWs (c : Char) : Bool :=
  c = ' ' || c = '\t' || c = '\n' || c = '\r' ||
  c = Char.ofNat 11 || c = Char.ofNat 12 || c = Char.ofNat 0xa0 ||
  c = Char.ofNat 0x2028 || c = Char.ofNat 0x2029 || c = Char.ofNat 0xfeff

/-- Leading and trailing whitespace stripped, as `Number(string)` does. -/
def jsTrim (s : String) : List Char :=
  ((s.data.dropWhile isJsTrimWs).reverse.dropWhile isJsTrimWs).reverse

/-- All-hex-digit run to a natural number, `none` if empty or non-hex. -/
def radixDigits (base : Nat) (val : Char → Option Nat) (cs : List Char) : Option Nat :=
  match cs with
  | [] => none
  | _ =>
    cs.foldl (fun acc c =>
      match acc, val c with
      | some a, some d => if d < base then some (a * base + d) else none
      | _, _ => none) (some 0)

/-- Unsigned decimal literal accepted by `Number`: `digits [. digits] [exp]`
or `. digits [exp]`, consuming the whole input. -/
def parseNumberDec (cs : List Char) : Option ℚ :=
  let (ip, r1) := spanDigits cs
  let mant? : Option (ℚ × List Char) :=
    match r1 with
    | '.' :: t =>
      let (fp, r2) := spanDigits t
      if ip.isEmpty ∧ fp.isEmpty then none
      else some ((digitsToNat ip : ℚ) + (digitsToNat fp : ℚ) / (10 : ℚ) ^ fp.length, r2)
    | _ => if ip.isEmpty then none else some ((digitsToNat ip : ℚ), r1)
  match mant? with
  | none => none
  | some (m, r2) =>
    match r2 with
    | [] => some m
    | 'e' :: t => (parseExpTail m t).bind (fun p => if p.2.isEmpty then some p.1 else none)
    | 'E' :: t => (parseExpTail m t).bind (fun p => if p.2.isEmpty then some p.1 else none)
    | _ => none

/-- Model of the JS builtin `Number(string)`; `none` stands for `NaN`.
An empty (or all-whitespace) string converts to `0`; radix-prefixed literals
(`0x`, `0o`, `0b`) admit no sign; otherwise an optional sign precedes
`Infinity` or a decimal literal. -/
def jsNumber (s : String) : Option JsNum :=
  match jsTrim s with
  | [] => some (.finite 0)
  | '0' :: 'x' :: ds => (radixDigits 16 hexVal ds).map (fun n => .finite (n : ℚ))
  | '0' :: 'X' :: ds => (radixDigits 16 hexVal ds).map (fun n => .finite (n : ℚ))
  | '0' :: 'o' :: ds => (radixDigits 8 hexVal ds).map (fun n => .finite (n : ℚ))
  | '0' :: 'O' :: ds => (radixDigits 8 hexVal ds).map (fun n => .finite (n : ℚ))
  | '0' :: 'b' :: ds => (radixDigits 2 hexVal ds).map (fun n => .finite (n : ℚ))
  | '0' :: 'B' :: ds => (radixDigits 2 hexVal ds).map (fun n => .finite (n : ℚ))
  | cs =>
    let (neg, body) : Bool × List Char :=
      match cs with
      | '+' :: t => (false, t)
      | '-' :: t => (true, t)
      | t => (false, t)
    if body = "Infinity".data then some (if neg then .negInf else .posInf)
    else (parseNumberDec body).map (fun q => .finite (if neg then -q else q))

/-- A string key that counts as a JS array index (canonical decimal numeral —
digits only, no leading zero — whose value is below 2^32 - 1); such keys are
enumerated first, in ascending numeric order, by `Object.entries`. -/
def keyToArrayIndex (s : String) : Option Nat :=
  match s.data with
  | [] => none
  | c :: cs =>
    if (c :: cs).all Char.isDigit ∧ (c = '0' → cs = []) then
      if digitsToNat (c :: cs) < 4294967295 then some (digitsToNat (c :: cs)) else none
    else none

/-- Insertion into a list sorted by numeric key (insertion sort step). -/
def insertIndexed (p : Nat × String × Json) :
    List (Nat × String × Json) → List (Nat × String × Json)
  | [] => [p]
  | q :: qs => if p.1 < q.1 then p :: q :: qs else q :: insertIndexed p qs

/-- JS own-property enumeration order: array-index keys in ascending numeric
order first, then the remaining keys in insertion order. -/
def jsOwnPropOrder (fields : List (String × Json)) : List (String × Json) :=
  let indexed := fields.filterMap (fun p => (keyToArrayIndex p.1).map (fun n => (n, p)))
  let sorted := (indexed.foldl (fun acc q => insertIndexed q acc) []).map (fun q => q.2)
  let others := fields.filter (fun p => keyToArrayIndex p.1 = none)
  sorted ++ others

/-- Model of the JS builtin `Object.entries`: `none` when the call would throw
a `TypeError` (argument `null`); on an object, the own properties in JS
enumeration order; on an array or a string, the index/element pairs; on a
number or boolean, the empty list. -/
def jsObjectEntries : Json → Option (List (String × Json))
  | .null => none
  | .obj fs => some (jsOwnPropOrder fs)
  | .arr xs => some (List.zipWith (fun i v => (toString i, v)) (List.range xs.length) xs)
  | .str s =>
    some (List.zipWith (fun i c => (toString i, Json.str (String.mk [c])))
      (List.range s.length) s.data)
  | .bool _ => some []
  | .num _ => some []

/-- Model of the JS `String.prototype.endsWith` test used for topic
dispatch. -/
def jsEndsWith (s suffix : String) : Bool :=
  suffix.data.isSuffixOf s.data

/-- Operational states the adapter pushes to the device handle. -/
inductive OpState where
  | Charging
  | Running
  | Docked
  | Paused
  | Error
deriving DecidableEq, Repr

/-- Run modes declared on the device (`['Idle','Cleaning']`). -/
inductive RunMode where
  | Idle
  | Cleaning
deriving DecidableEq, Repr

/-- Clean modes declared on the device (`['Vacuum','Mop']`). -/
inductive CleanMode where
  | Vacuum
  | Mop
deriving DecidableEq, Repr

/-- The `rvc` section of the plugin configuration.  A `none` field models a
JS `undefined` or `null` value: the code reads every field through `??`,
truthiness tests or a `!== false` comparison, all of which treat the two
alike. -/
structure RvcConfig where
  serverMode : Option Bool := none
  defaultCleanMode : Option CleanMode := none
  mapServiceAreasFromSegments : Option Bool := none
  fanPresetForVacuum : Option String := none
  operationModePresetVacuum : Option String := none
  fanPresetForMop : Option String := none
  waterPresetForMop : Option String := none
  operationModePresetMop : Option String := none

/-- The adapter's own mutable fields (`this.watertank`, `this.segments`).
`segments` starts as the empty object and holds whatever value the last
successful `JSON.parse` of a segments message produced. -/
structure BridgeState where
  watertank : Bool := false
  segments : Json := .obj []

/-- An entry of the service-area list pushed to the device:
`Object.entries(segments).map(([id, name]) => (\x7b id, name \x7d))`. -/
structure ServiceArea where
  id : String
  name : Json

/-- Payload handed to `publish`: a string goes out verbatim, anything else is
serialized with `JSON.stringify` by the transport wrapper. -/
inductive PubPayload where
  | str (s : String)
  | json (j : Json)

/-- One externally visible call made by the adapter, in program order: an MQTT
publish (topic suffix below the adapter's base), a log line, or an update call
on the `RoboticVacuumCleaner` device handle. -/
inductive Event where
  | publish (suffix : String) (payload : PubPayload)
  | logWarn (msg : String)
  | logInfo (msg : String)
  | updateBattery (pct : JsNum)
  | updateOperationalState (s : OpState)
  | updateRunMode (m : RunMode)
  | updateCleanMode (m : CleanMode)
  | updateServiceAreas (areas : List ServiceArea)

/-- Predicate that is true exactly on warning-log events. -/
def isLogWarnEvent : Event → Bool
  | .logWarn _ => true
  | _ => false

/-- Predicate that is true exactly on a publish of string payload `p` to
topic suffix `sfx`. -/
def isPublishOf (sfx p : String) : Event → Bool
  | .publish s (.str q) => s = sfx && q = p
  | _ => false

/-- Embedding of `onMqttMessage(topic, msg)`: the eight ends-with checks in
source order, returning the updated adapter state and the outbound calls.
The `try`/`catch` around the segments branch is embedded by the `Option`
results of `jsonParse` and `jsObjectEntries` (the two calls in the `try` body
that can throw); the `catch` arm logs through `this.log?.warn?.(...)`, whose
message interpolates the runtime exception text and is modelled by its fixed
prefix. -/
def onMqttMessage (cfg : RvcConfig) (st : BridgeState) (topic msg : String) :
    BridgeState × List Event :=
  if jsEndsWith topic "BatteryStateAttribute/level" then
    match jsNumber msg with
    | some pct => (st, [.updateBattery pct])
    | none => (st, [])
  else if jsEndsWith topic "BatteryStateAttribute/status" then
    if msg = "charging" then (st, [.updateOperationalState .Charging]) else (st, [])
  else if jsEndsWith topic "DockStatusStateAttribute/status" then
    if msg = "cleaning" then (st, [.updateOperationalState .Running])
    else if msg = "idle" then (st, [.updateOperationalState .Docked])
    else if msg = "pause" then (st, [.updateOperationalState .Paused])
    else if msg = "error" then (st, [.updateOperationalState .Error])
    else (st, [])
  else if jsEndsWith topic "StatusStateAttribute/error" then
    if msg ≠ "" ∧ msg ≠ "\x7b\x7d" ∧ msg ≠ "null" then
      (st, [.updateOperationalState .Error])
    else (st, [])
  else if jsEndsWith topic "AttachmentStateAttribute/watertank" then
    ({ st with watertank := msg = "true" ∨ msg = "1" }, [])
  else if jsEndsWith topic "FanSpeedControlCapability/preset" then
    (st, [])
  else if jsEndsWith topic "WaterUsageControlCapability/preset" then
    (st, [])
  else if jsEndsWith topic "MapData/segments" then
    match jsonParse msg with
    | none => (st, [.logWarn "Invalid segments JSON"])
    | some j =>
      let st1 := { st with segments := j }
      if cfg.mapServiceAreasFromSegments ≠ some false then
        match jsObjectEntries j with
        | none => (st1, [.logWarn "Invalid segments JSON"])
        | some es => (st1, [.updateServiceAreas (es.map (fun p => ⟨p.1, p.2⟩))])
      else (st1, [])
  else (st, [])

/-- Embedding of the pattern `if (x) this.publish(sfx, x)` on an optional
string `x`: publish only a truthy (present and nonempty) value. -/
def pubIfTruthy (sfx : String) : Option String → List Event
  | some s => if s.isEmpty then [] else [.publish sfx (.str s)]
  | none => []

/-- Embedding of `applyCleanMode(mode)`, the clean-mode-change handler. -/
def applyCleanMode (cfg : RvcConfig) (st : BridgeState) (mode : CleanMode) :
    BridgeState × List Event :=
  let fanVac := cfg.fanPresetForVacuum.getD "standard"
  let opVac := cfg.operationModePresetVacuum
  let fanMop := cfg.fanPresetForMop
  let waterMop := cfg.waterPresetForMop.getD "medium"
  let opMop := cfg.operationModePresetMop
  match mode with
  | .Vacuum =>
    (st,
      pubIfTruthy "OperationModeControlCapability/preset/set" opVac ++
      pubIfTruthy "FanSpeedControlCapability/preset/set" (some fanVac) ++
      [.publish "WaterUsageControlCapability/preset/set" (.str "off")])
  | .Mop =>
    if !st.watertank then
      (st, [.logInfo "Mop selected but watertank is not attached; ignoring"])
    else
      (st,
        pubIfTruthy "OperationModeControlCapability/preset/set" opMop ++
        pubIfTruthy "FanSpeedControlCapability/preset/set" fanMop ++
        pubIfTruthy "WaterUsageControlCapability/preset/set" (some waterMop))

/-- Argument of the public `cleanServiceAreas(areaIds)` call as a JS value:
the declared type is `string[]`, but the compiled code guards with
`Array.isArray`, so any value (including `undefined`) can arrive. -/
inductive JsArg where
  | undefined
  | val (j : Json)

/-- Guard `!Array.isArray(areaIds) || !areaIds.length` of
`cleanServiceAreas`: true exactly on a non-empty array. -/
def isNonEmptyArray : JsArg → Bool
  | .val (.arr xs) => !xs.isEmpty
  | _ => false

/-- Embedding of `cleanServiceAreas(areaIds)`. -/
def cleanServiceAreas (st : BridgeState) (areaIds : JsArg) :
    BridgeState × List Event :=
  match areaIds with
  | .val (.arr xs) =>
    if xs.isEmpty then (st, [])
    else
      (st,
        [.publish "MapSegmentationCapability/clean/set"
            (.json (.obj [("segment_ids", .arr xs)])),
          .updateRunMode .Cleaning])
  | _ => (st, [])

/-- Two suffixes of the same list are comparable: the shorter is a suffix of
the longer. -/
theorem suffix_or_suffix_of_suffix {l₁ l₂ l : List Char}
    (h₁ : l₁ <:+ l) (h₂ : l₂ <:+ l) : l₁ <:+ l₂ ∨ l₂ <:+ l₁ := by
  have p₁ : l₁.reverse <+: l.reverse := List.reverse_prefix.mpr h₁
  have p₂ : l₂.reverse <+: l.reverse := List.reverse_prefix.mpr h₂
  rcases List.prefix_or_prefix_of_prefix p₁ p₂ with h | h
  · exact Or.inl <| List.reverse_prefix.mp h
  · exact Or.inr <| List.reverse_prefix.mp h

/-- A topic that ends with `b` cannot also end with `a` when neither of the
two literals is a suffix of the other: this is what makes the ends-with
dispatch in `onMqttMessage` unambiguous. -/
theorem jsEndsWith_excl {t a b : String}
    (hab : ¬ a.data <:+ b.data) (hba : ¬ b.data <:+ a.data)
    (hb : jsEndsWith t b = true) : jsEndsWith t a = false := by
  cases hcase : jsEndsWith t a with
  | false => rfl
  | true =>
    exfalso
    have ha' : a.data <:+ t.data := List.isSuffixOf_iff_suffix.mp hcase
    have hb' : b.data <:+ t.data := List.isSuffixOf_iff_suffix.mp hb
    rcases suffix_or_suffix_of_suffix ha' hb' with h | h
    · exact hab h
    · exact hba h

/-- C5: for every inbound message on a topic ending with
`BatteryStateAttribute/level` with string payload `s`, the device battery is
updated to `Number(s)` if and only if `Number(s)` is not `NaN`; otherwise no
device or adapter state changes. -/
theorem battery_level_update (cfg : RvcConfig) (st : BridgeState) (topic msg : String)
    (htopic : jsEndsWith topic "BatteryStateAttribute/level" = true) :
    onMqttMessage cfg st topic msg =
      (st, match jsNumber msg with
           | some pct => [Event.updateBattery pct]
           | none => []) := by
  cases h : jsNumber msg with
  | some pct => simp [onMqttMessage, htopic, h]
  | none => simp [onMqttMessage, htopic, h]

/-- Witness for C5 at a concrete topic and the payload `"55"`. -/
theorem battery_level_update_witness :
    jsEndsWith "valetudo/robot/BatteryStateAttribute/level" "BatteryStateAttribute/level" = true ∧
    onMqttMessage {} {} "valetudo/robot/BatteryStateAttribute/level" "55" =
      ({}, [Event.updateBattery (.finite 55)]) := by
  refine ⟨rfl, ?_⟩
  exact battery_level_update {} {} "valetudo/robot/BatteryStateAttribute/level" "55" rfl

/-- A string made of `Number`-trimmable whitespace only trims to nothing. -/
theorem jsTrim_eq_nil_of_all_ws (msg : String) (h : msg.data.all isJsTrimWs = true) :
    jsTrim msg = [] := by
  have h1 : msg.data.dropWhile isJsTrimWs = [] := by
    rw [List.dropWhile_eq_nil_iff]
    intro x hx
    exact List.all_eq_true.mp h x hx
  simp [jsTrim, h1]

/-- C9: for an inbound battery-level message whose payload is empty or only
whitespace, `Number(payload)` evaluates to `0` rather than `NaN`, so the
device battery is updated to `0` instead of the message being ignored as
non-numeric. -/
theorem battery_level_blank_is_zero (cfg : RvcConfig) (st : BridgeState)
    (topic msg : String)
    (htopic : jsEndsWith topic "BatteryStateAttribute/level" = true)
    (hblank : msg.data.all isJsTrimWs = true) :
    jsNumber msg = some (.finite 0) ∧
    onMqttMessage cfg st topic msg = (st, [Event.updateBattery (.finite 0)]) := by
  have hnum : jsNumber msg = some (.finite 0) := by
    rw [jsNumber, jsTrim_eq_nil_of_all_ws msg hblank]
  exact ⟨hnum, by simp [onMqttMessage, htopic, hnum]⟩

/-- Witness for C9 at a concrete topic and the payload of two spaces. -/
theorem battery_level_blank_is_zero_witness :
    jsNumber "  " = some (.finite 0) ∧
    onMqttMessage {} {} "valetudo/robot/BatteryStateAttribute/level" "  " =
      ({}, [Event.updateBattery (.finite 0)]) := by
  exact battery_level_blank_is_zero {} {} "valetudo/robot/BatteryStateAttribute/level" "  " rfl rfl

/-- C8: for every inbound message on a topic ending with
`DockStatusStateAttribute/status`, payload `"cleaning"` sets operational
state `Running`, `"idle"` sets `Docked`, `"pause"` sets `Paused`, `"error"`
sets `Error`, and any other payload changes nothing. -/
theorem dock_status_update (cfg : RvcConfig) (st : BridgeState) (topic msg : String)
    (htopic : jsEndsWith topic "DockStatusStateAttribute/status" = true) :
    onMqttMessage cfg st topic msg =
      (st, if msg = "cleaning" then [Event.updateOperationalState .Running]
           else if msg = "idle" then [Event.updateOperationalState .Docked]
           else if msg = "pause" then [Event.updateOperationalState .Paused]
           else if msg = "error" then [Event.updateOperationalState .Error]
           else []) := by
  have h1 : jsEndsWith topic "BatteryStateAttribute/level" = false :=
    jsEndsWith_excl (by decide) (by decide) htopic
  have h2 : jsEndsWith topic "BatteryStateAttribute/status" = false :=
    jsEndsWith_excl (by decide) (by decide) htopic
  by_cases m1 : msg = "cleaning" <;> by_cases m2 : msg = "idle" <;>
    by_cases m3 : msg = "pause" <;> by_cases m4 : msg = "error" <;>
    simp [onMqttMessage, h1, h2, htopic, m1, m2, m3, m4]

/-- Witness for C8 at a concrete topic, with the payload `"idle"` and an
unrecognized payload. -/
theorem dock_status_update_witness :
    onMqttMessage {} {} "valetudo/robot/DockStatusStateAttribute/status" "idle" =
      ({}, [Event.updateOperationalState .Docked]) ∧
    onMqttMessage {} {} "valetudo/robot/DockStatusStateAttribute/status" "asleep" =
      ({}, []) := by
  constructor
  · exact dock_status_update {} {} "valetudo/robot/DockStatusStateAttribute/status" "idle" rfl
  · exact dock_status_update {} {} "valetudo/robot/DockStatusStateAttribute/status" "asleep" rfl

/-- C7: for every inbound message on a topic ending with
`StatusStateAttribute/error`, a payload that is the empty string, the
empty-object marker or the null marker leaves the operational state
untouched; any other non-empty payload sets it to `Error`. -/
theorem error_status_update (cfg : RvcConfig) (st : BridgeState) (topic msg : String)
    (htopic : jsEndsWith topic "StatusStateAttribute/error" = true) :
    onMqttMessage cfg st topic msg =
      (st, if msg = "" ∨ msg = "\x7b\x7d" ∨ msg = "null" then []
           else [Event.updateOperationalState .Error]) := by
  have h1 : jsEndsWith topic "BatteryStateAttribute/level" = false :=
    jsEndsWith_excl (by decide) (by decide) htopic
  have h2 : jsEndsWith topic "BatteryStateAttribute/status" = false :=
    jsEndsWith_excl (by decide) (by decide) htopic
  have h3 : jsEndsWith topic "DockStatusStateAttribute/status" = false :=
    jsEndsWith_excl (by decide) (by decide) htopic
  by_cases m1 : msg = "" <;> by_cases m2 : msg = "\x7b\x7d" <;>
    by_cases m3 : msg = "null" <;>
    simp [onMqttMessage, h1, h2, h3, htopic, m1, m2, m3]

/-- Witness for C7 at a concrete topic, with the payload `"\x7b\x7d"` (no
state change) and a non-empty error payload (state set to `Error`). -/
theorem error_status_update_witness :
    onMqttMessage {} {} "valetudo/robot/StatusStateAttribute/error" "\x7b\x7d" =
      ({}, []) ∧
    onMqttMessage {} {} "valetudo/robot/StatusStateAttribute/error" "mop_detached" =
      ({}, [Event.updateOperationalState .Error]) := by
  constructor
  · exact error_status_update {} {} "valetudo/robot/StatusStateAttribute/error" "\x7b\x7d" rfl
  · exact error_status_update {} {} "valetudo/robot/StatusStateAttribute/error" "mop_detached" rfl

/-- On any topic ending with `MapData/segments`, `onMqttMessage` runs exactly
the segments branch: the seven earlier ends-with checks cannot match such a
topic. -/
theorem onMqttMessage_segments_eq (cfg : RvcConfig) (st : BridgeState)
    (topic msg : String)
    (htopic : jsEndsWith topic "MapData/segments" = true) :
    onMqttMessage cfg st topic msg =
      (match jsonParse msg with
       | none => (st, [Event.logWarn "Invalid segments JSON"])
       | some j =>
         let st1 := { st with segments := j }
         if cfg.mapServiceAreasFromSegments ≠ some false then
           match jsObjectEntries j with
           | none => (st1, [Event.logWarn "Invalid segments JSON"])
           | some es => (st1, [Event.updateServiceAreas (es.map (fun p => ⟨p.1, p.2⟩))])
         else (st1, [])) := by
  have h1 : jsEndsWith topic "BatteryStateAttribute/level" = false :=
    jsEndsWith_excl (by decide) (by decide) htopic
  have h2 : jsEndsWith topic "BatteryStateAttribute/status" = false :=
    jsEndsWith_excl (by decide) (by decide) htopic
  have h3 : jsEndsWith topic "DockStatusStateAttribute/status" = false :=
    jsEndsWith_excl (by decide) (by decide) htopic
  have h4 : jsEndsWith topic "StatusStateAttribute/error" = false :=
    jsEndsWith_excl (by decide) (by decide) htopic
  have h5 : jsEndsWith topic "AttachmentStateAttribute/watertank" = false :=
    jsEndsWith_excl (by decide) (by decide) htopic
  have h6 : jsEndsWith topic "FanSpeedControlCapability/preset" = false :=
    jsEndsWith_excl (by decide) (by decide) htopic
  have h7 : jsEndsWith topic "WaterUsageControlCapability/preset" = false :=
    jsEndsWith_excl (by decide) (by decide) htopic
  simp [onMqttMessage, h1, h2, h3, h4, h5, h6, h7, htopic]

/-- C1: for every inbound message on a topic ending with `MapData/segments`
whose payload is not valid JSON, the handler leaves the previously stored
segment table (indeed the whole adapter state) unchanged, emits a warning
log, and makes no other outbound call; the handler is a total function, so
no failure is thrown or propagated. -/
theorem segments_invalid_json (cfg : RvcConfig) (st : BridgeState)
    (topic msg : String)
    (htopic : jsEndsWith topic "MapData/segments" = true)
    (hbad : jsonParse msg = none) :
    onMqttMessage cfg st topic msg = (st, [Event.logWarn "Invalid segments JSON"]) := by
  rw [onMqttMessage_segments_eq cfg st topic msg htopic, hbad]

/-- Witness for C1 at a concrete topic and the malformed payload `"not json"`. -/
theorem segments_invalid_json_witness :
    jsonParse "not json" = none ∧
    onMqttMessage {} {} "valetudo/robot/MapData/segments" "not json" =
      ({}, [Event.logWarn "Invalid segments JSON"]) := by
  refine ⟨rfl, ?_⟩
  exact segments_invalid_json {} {} "valetudo/robot/MapData/segments" "not json" rfl rfl

/-- C4: for every inbound message on a topic ending with `MapData/segments`
whose payload parses to a JSON object, the segment table is replaced
wholesale with the parsed object; when `mapServiceAreasFromSegments` is not
`false` (the default), the service-area list is set to the id/name pairs of
the table's entries (in JS own-property order), and when it is `false` the
service-area list is not touched. -/
theorem segments_valid_object (cfg : RvcConfig) (st : BridgeState)
    (topic msg : String) (fs : List (String × Json))
    (htopic : jsEndsWith topic "MapData/segments" = true)
    (hparse : jsonParse msg = some (Json.obj fs)) :
    onMqttMessage cfg st topic msg =
      ({ st with segments := Json.obj fs },
        if cfg.mapServiceAreasFromSegments ≠ some false then
          [Event.updateServiceAreas ((jsOwnPropOrder fs).map (fun p => ⟨p.1, p.2⟩))]
        else []) := by
  rw [onMqttMessage_segments_eq cfg st topic msg htopic, hparse]
  by_cases hmap : cfg.mapServiceAreasFromSegments = some false <;>
    simp [hmap, jsObjectEntries]

/-- Witness for C4 at a concrete topic with the payload
`\x7b"1":"Kitchen","2":"Hall"\x7d`, under the default configuration and
under a configuration that disables area derivation. -/
theorem segments_valid_object_witness :
    jsonParse "\x7b\"1\":\"Kitchen\",\"2\":\"Hall\"\x7d" =
      some (Json.obj [("1", .str "Kitchen"), ("2", .str "Hall")]) ∧
    onMqttMessage {} {} "valetudo/robot/MapData/segments"
        "\x7b\"1\":\"Kitchen\",\"2\":\"Hall\"\x7d" =
      ({ watertank := false, segments := Json.obj [("1", .str "Kitchen"), ("2", .str "Hall")] },
        [Event.updateServiceAreas [⟨"1", .str "Kitchen"⟩, ⟨"2", .str "Hall"⟩]]) ∧
    onMqttMessage { mapServiceAreasFromSegments := some false } {}
        "valetudo/robot/MapData/segments"
        "\x7b\"1\":\"Kitchen\",\"2\":\"Hall\"\x7d" =
      ({ watertank := false, segments := Json.obj [("1", .str "Kitchen"), ("2", .str "Hall")] },
        []) := by
  refine ⟨rfl, ?_, ?_⟩
  · exact segments_valid_object {} {} "valetudo/robot/MapData/segments"
      "\x7b\"1\":\"Kitchen\",\"2\":\"Hall\"\x7d"
      [("1", .str "Kitchen"), ("2", .str "Hall")] rfl rfl
  · exact segments_valid_object { mapServiceAreasFromSegments := some false } {}
      "valetudo/robot/MapData/segments"
      "\x7b\"1\":\"Kitchen\",\"2\":\"Hall\"\x7d"
      [("1", .str "Kitchen"), ("2", .str "Hall")] rfl rfl

/-- C10 counterexample: the payload `"5"` is valid JSON and not a JSON
object, yet under the default configuration the service-area projection does
NOT fail — `Object.entries(5)` is the empty list — so the handler emits no
warning at all and instead pushes an empty service-area list, refuting the
claim that for such payloads the projection fails and only a warning is
logged.  The segment table does end up as the non-object value `5`. -/
theorem segments_nonobject_counterexample :
    onMqttMessage {} {} "valetudo/robot/MapData/segments" "5" =
      ({ watertank := false, segments := Json.num 5 }, [Event.updateServiceAreas []]) ∧
    ((onMqttMessage {} {} "valetudo/robot/MapData/segments" "5").2.countP isLogWarnEvent) = 0 := by
  exact ⟨rfl, rfl⟩

/-- C10 (amended): for an inbound `MapData/segments` message whose payload is
valid JSON but not a JSON object, the segment table is replaced with the
parsed non-object value, so it is no longer a string-to-string mapping.  With
area derivation enabled, only the value `null` makes the projection fail (the
failure is caught and just a warning is logged); any other non-object value
projects successfully to its index-based entries, which are pushed as the
service-area list.  With area derivation disabled nothing else happens. -/
theorem segments_nonobject_amended (cfg : RvcConfig) (st : BridgeState)
    (topic msg : String) (j : Json)
    (htopic : jsEndsWith topic "MapData/segments" = true)
    (hparse : jsonParse msg = some j)
    (hnotobj : ∀ fs : List (String × Json), j ≠ Json.obj fs) :
    (onMqttMessage cfg st topic msg).1 = { st with segments := j } ∧
    (cfg.mapServiceAreasFromSegments ≠ some false →
      (j = Json.null →
        (onMqttMessage cfg st topic msg).2 = [Event.logWarn "Invalid segments JSON"]) ∧
      (∀ es, jsObjectEntries j = some es →
        (onMqttMessage cfg st topic msg).2 =
          [Event.updateServiceAreas (es.map (fun p => ⟨p.1, p.2⟩))])) ∧
    (cfg.mapServiceAreasFromSegments = some false →
      (onMqttMessage cfg st topic msg).2 = []) := by
  rw [onMqttMessage_segments_eq cfg st topic msg htopic, hparse]
  refine ⟨?_, ?_, ?_⟩
  · by_cases hmap : cfg.mapServiceAreasFromSegments = some false
    · simp [hmap]
    · cases hes : jsObjectEntries j <;> simp [hmap, hes]
  · intro hmap
    constructor
    · intro hj
      subst hj
      simp [hmap, jsObjectEntries]
    · intro es hes
      simp [hmap, hes]
  · intro hmap
    simp [hmap]

/-- Witness for the amended C10 at the payload `"null"` (projection fails,
warning logged, table becomes `null`) under the default configuration. -/
theorem segments_nonobject_amended_witness :
    (onMqttMessage {} {} "valetudo/robot/MapData/segments" "null").1 =
      { watertank := false, segments := Json.null } ∧
    (onMqttMessage {} {} "valetudo/robot/MapData/segments" "null").2 =
      [Event.logWarn "Invalid segments JSON"] := by
  have h := segments_nonobject_amended {} {} "valetudo/robot/MapData/segments" "null"
    Json.null rfl rfl (fun fs hfs => Json.noConfusion hfs)
  exact ⟨h.1, (h.2.1 (by simp)).1 rfl⟩

/-- C2: on a clean-mode-change event with mode `Mop`, if the tracked
water-tank attachment flag is false the procedure publishes nothing, logs one
informational message and aborts with no state change; if the flag is true it
publishes, each exactly once and in this order, the configured operation-mode
preset for mop when present (truthy), the configured fan preset for mop when
present (default none), and the configured water-usage preset for mop when
present (default `"medium"`). -/
theorem apply_clean_mode_mop (cfg : RvcConfig) (st : BridgeState) :
    (st.watertank = false →
      applyCleanMode cfg st .Mop =
        (st, [Event.logInfo "Mop selected but watertank is not attached; ignoring"])) ∧
    (st.watertank = true →
      applyCleanMode cfg st .Mop =
        (st,
          (match cfg.operationModePresetMop with
           | some s => if s = "" then []
               else [Event.publish "OperationModeControlCapability/preset/set" (.str s)]
           | none => []) ++
          (match cfg.fanPresetForMop with
           | some s => if s = "" then []
               else [Event.publish "FanSpeedControlCapability/preset/set" (.str s)]
           | none => []) ++
          (if cfg.waterPresetForMop.getD "medium" = "" then []
           else [Event.publish "WaterUsageControlCapability/preset/set"
                   (.str (cfg.waterPresetForMop.getD "medium"))]))) := by
  constructor
  · intro h
    simp [applyCleanMode, h]
  · intro h
    simp only [applyCleanMode, h, Bool.not_true, Bool.false_eq_true, if_false]
    refine congrArg (Prod.mk st) ?_
    refine congrArg₂ (· ++ ·) (congrArg₂ (· ++ ·) ?_ ?_) ?_
    · cases cfg.operationModePresetMop with
      | none => rfl
      | some s => by_cases hs : s = "" <;> simp [pubIfTruthy, hs, String.isEmpty_iff]
    · cases cfg.fanPresetForMop with
      | none => rfl
      | some s => by_cases hs : s = "" <;> simp [pubIfTruthy, hs, String.isEmpty_iff]
    · by_cases hs : cfg.waterPresetForMop.getD "medium" = "" <;>
        simp [pubIfTruthy, hs, String.isEmpty_iff]

/-- Witness for C2: with the water tank detached only the log line happens;
with it attached, under the default configuration exactly the default
`"medium"` water preset is published, and with all three mop presets
configured all three are published in order. -/
theorem apply_clean_mode_mop_witness :
    applyCleanMode {} { watertank := false } .Mop =
      ({ watertank := false },
        [Event.logInfo "Mop selected but watertank is not attached; ignoring"]) ∧
    applyCleanMode {} { watertank := true } .Mop =
      ({ watertank := true },
        [Event.publish "WaterUsageControlCapability/preset/set" (.str "medium")]) ∧
    applyCleanMode
        { operationModePresetMop := some "mop", fanPresetForMop := some "low",
          waterPresetForMop := some "high" }
        { watertank := true } .Mop =
      ({ watertank := true },
        [Event.publish "OperationModeControlCapability/preset/set" (.str "mop"),
         Event.publish "FanSpeedControlCapability/preset/set" (.str "low"),
         Event.publish "WaterUsageControlCapability/preset/set" (.str "high")]) := by
  refine ⟨(apply_clean_mode_mop {} { watertank := false }).1 rfl, ?_, ?_⟩
  · exact (apply_clean_mode_mop {} { watertank := true }).2 rfl
  · exact (apply_clean_mode_mop
      { operationModePresetMop := some "mop", fanPresetForMop := some "low",
        waterPresetForMop := some "high" } { watertank := true }).2 rfl

/-- C6: on a clean-mode-change event with mode `Vacuum`, for every
configuration, the procedure publishes (in order) the configured
operation-mode preset for vacuum when present (truthy), the configured fan
preset for vacuum when present (default `"standard"`), and then `"off"` to
`WaterUsageControlCapability/preset/set` — the latter exactly once,
unconditionally. -/
theorem apply_clean_mode_vacuum (cfg : RvcConfig) (st : BridgeState) :
    applyCleanMode cfg st .Vacuum =
      (st,
        (match cfg.operationModePresetVacuum with
         | some s => if s = "" then []
             else [Event.publish "OperationModeControlCapability/preset/set" (.str s)]
         | none => []) ++
        (if cfg.fanPresetForVacuum.getD "standard" = "" then []
         else [Event.publish "FanSpeedControlCapability/preset/set"
                 (.str (cfg.fanPresetForVacuum.getD "standard"))]) ++
        [Event.publish "WaterUsageControlCapability/preset/set" (.str "off")]) ∧
    ((applyCleanMode cfg st .Vacuum).2.countP
        (isPublishOf "WaterUsageControlCapability/preset/set" "off")) = 1 := by
  have hmain : applyCleanMode cfg st .Vacuum =
      (st,
        (match cfg.operationModePresetVacuum with
         | some s => if s = "" then []
             else [Event.publish "OperationModeControlCapability/preset/set" (.str s)]
         | none => []) ++
        (if cfg.fanPresetForVacuum.getD "standard" = "" then []
         else [Event.publish "FanSpeedControlCapability/preset/set"
                 (.str (cfg.fanPresetForVacuum.getD "standard"))]) ++
        [Event.publish "WaterUsageControlCapability/preset/set" (.str "off")]) := by
    simp only [applyCleanMode]
    refine congrArg (Prod.mk st) ?_
    refine congrArg₂ (· ++ ·) (congrArg₂ (· ++ ·) ?_ ?_) rfl
    · cases cfg.operationModePresetVacuum with
      | none => rfl
      | some s => by_cases hs : s = "" <;> simp [pubIfTruthy, hs, String.isEmpty_iff]
    · by_cases hs : cfg.fanPresetForVacuum.getD "standard" = "" <;>
        simp [pubIfTruthy, hs, String.isEmpty_iff]
  refine ⟨hmain, ?_⟩
  rw [hmain]
  simp only [List.countP_append]
  have c1 : (match cfg.operationModePresetVacuum with
      | some s => if s = "" then []
          else [Event.publish "OperationModeControlCapability/preset/set" (.str s)]
      | none => ([] : List Event)).countP
        (isPublishOf "WaterUsageControlCapability/preset/set" "off") = 0 := by
    cases cfg.operationModePresetVacuum with
    | none => rfl
    | some s =>
      by_cases hs : s = "" <;> simp [hs, List.countP_cons, isPublishOf]
  have c2 : (if cfg.fanPresetForVacuum.getD "standard" = "" then ([] : List Event)
      else [Event.publish "FanSpeedControlCapability/preset/set"
              (.str (cfg.fanPresetForVacuum.getD "standard"))]).countP
        (isPublishOf "WaterUsageControlCapability/preset/set" "off") = 0 := by
    by_cases hs : cfg.fanPresetForVacuum.getD "standard" = "" <;>
      simp [hs, List.countP_cons, isPublishOf]
  rw [c1, c2]
  rfl

/-- C3: `cleanServiceAreas(areaIds)` is a silent no-op (no publish, no
run-mode change) whenever the argument is `null`, `undefined`, not an array,
or an empty array; on a non-empty array it publishes exactly one message with
the JSON payload `\x7b segment_ids: areaIds \x7d` to
`MapSegmentationCapability/clean/set` and then sets the run mode to
`Cleaning`. -/
theorem clean_service_areas_spec (st : BridgeState) (arg : JsArg) :
    (isNonEmptyArray arg = false → cleanServiceAreas st arg = (st, [])) ∧
    (∀ xs : List Json, arg = .val (.arr xs) → xs ≠ [] →
      cleanServiceAreas st arg =
        (st, [Event.publish "MapSegmentationCapability/clean/set"
                (.json (.obj [("segment_ids", .arr xs)])),
              Event.updateRunMode .Cleaning])) := by
  constructor
  · intro h
    cases arg with
    | undefined => rfl
    | val j =>
      cases j with
      | arr xs =>
        simp only [isNonEmptyArray, Bool.not_eq_false'] at h
        simp [cleanServiceAreas, h]
      | null => rfl
      | bool b => rfl
      | num q => rfl
      | str s => rfl
      | obj fs => rfl
  · intro xs harg hne
    subst harg
    simp [cleanServiceAreas, hne]

/-- Witness for C3: no-ops on `null`, `undefined` and the empty array, and
the publish-then-run on `["A","B"]`. -/
theorem clean_service_areas_spec_witness :
    cleanServiceAreas {} (.val .null) = ({}, []) ∧
    cleanServiceAreas {} .undefined = ({}, []) ∧
    cleanServiceAreas {} (.val (.num 7)) = ({}, []) ∧
    cleanServiceAreas {} (.val (.arr [])) = ({}, []) ∧
    cleanServiceAreas {} (.val (.arr [.str "A", .str "B"])) =
      ({}, [Event.publish "MapSegmentationCapability/clean/set"
              (.json (.obj [("segment_ids", .arr [.str "A", .str "B"])])),
            Event.updateRunMode .Cleaning]) := by
  refine ⟨(clean_service_areas_spec {} (.val .null)).1 rfl,
    (clean_service_areas_spec {} .undefined).1 rfl,
    (clean_service_areas_spec {} (.val (.num 7))).1 rfl,
    (clean_service_areas_spec {} (.val (.arr []))).1 rfl,
    (clean_service_areas_spec {} (.val (.arr [.str "A", .str "B"]))).2
      [.str "A", .str "B"] rfl (by simp)⟩

end Valetudo
